import Mathlib

/-!
Shallow embedding of the posts router of the Irfan430/rest-api repository
(src/routes/posts.js).  Documents are modelled as Lean structures, the
Mongo/Mongoose store as a list of posts, and each Express handler as a pure
function from the store (plus request data) to a response and the new store.
Object ids are modelled as natural numbers, times as natural numbers.
-/

namespace RestApi

/-- A like entry embedded in a post: `{ user: ObjectId, createdAt: Date }`
(models/Post.js via README "Post Model"). -/
structure Like where
  user : Nat
  likedAt : Nat
  deriving DecidableEq

/-- A comment embedded in a post:
`{ _id, user: ObjectId, content: String, createdAt: Date }`. -/
structure Comment where
  cid : Nat
  user : Nat
  text : String
  commentedAt : Nat
  deriving DecidableEq

/-- A post document (models/Post.js via README "Post Model"). -/
structure Post where
  pid : Nat
  title : String
  content : String
  category : String
  tags : List String
  status : String
  author : Nat
  likes : List Like
  comments : List Comment
  viewCount : Nat
  createdAt : Nat
  deriving DecidableEq

/-- The authenticated identity attached by the auth middleware:
`req.user.id` and `req.user.role`. -/
structure User where
  uid : Nat
  role : String
  deriving DecidableEq

/-- The post collection. -/
abbrev Db := List Post

/-- Lookup by id, `Post.findById`. -/
def findById (db : Db) (i : Nat) : Option Post :=
  db.find? (fun p => p.pid == i)

/-- Persisting a modified document (`post.save()` / `findByIdAndUpdate`):
the stored document with this id is replaced by the new one. -/
def updateDb (db : Db) (i : Nat) (p' : Post) : Db :=
  db.map (fun q => if q.pid == i then p' else q)

/-- Deletion by id, `Post.findByIdAndDelete`. -/
def removeById (db : Db) (i : Nat) : Db :=
  db.filter (fun q => !(q.pid == i))

/-- The page/limit parse `parseInt(x, 10) || d`: absent (or non-numeric)
and `0` both fall back to the default, any other parsed value is kept.
Values are modelled as natural numbers. -/
def parseOr (v : Option Nat) (d : Nat) : Nat :=
  match v with
  | none => d
  | some n => if n == 0 then d else n

def lowerStr (s : String) : String := s.map Char.toLower

def isSubList (needle hay : List Char) : Bool :=
  hay.tails.any (fun t => needle.isPrefixOf t)

/-- Case-insensitive substring test, the effect of
`{ $regex: pat, $options: 'i' }` for a plain (metacharacter-free) pattern. -/
def substrCI (needle hay : String) : Bool :=
  isSubList (lowerStr needle).data (lowerStr hay).data

/-- The query string parameters read by the listing handlers. -/
structure QueryParams where
  page : Option Nat
  limit : Option Nat
  category : Option String
  tags : Option String
  search : Option String
  author : Option Nat
  sortBy : Option String
  status : Option String
  deriving DecidableEq

/-- The filter built by GET / (posts.js lines 19-43): always
`status: 'published'`, then optional category / tags / search / author
conditions, ANDed; the search condition is an OR over title and content. -/
def matchesListQuery (qp : QueryParams) (p : Post) : Bool :=
  (p.status == "published")
  && (match qp.category with
      | none => true
      | some c => substrCI c p.category)
  && (match qp.tags with
      | none => true
      | some t => (t.splitOn ",").any (fun s => p.tags.contains s))
  && (match qp.search with
      | none => true
      | some s => substrCI s p.title || substrCI s p.content)
  && (match qp.author with
      | none => true
      | some a => p.author == a)

/-- The sort specification object built by GET / (posts.js lines 45-62). -/
inductive SortSpec where
  | createdAtDesc : SortSpec
  | createdAtAsc : SortSpec
  | viewCountDesc : SortSpec
  | likesDesc : SortSpec
  | titleAsc : SortSpec
  deriving DecidableEq

/-- The switch on `req.query.sortBy`; any unrecognized or absent value keeps
the default `{ createdAt: -1 }`. -/
def sortSpecOf : Option String → SortSpec
  | some "oldest" => .createdAtAsc
  | some "popular" => .viewCountDesc
  | some "mostLiked" => .likesDesc
  | some "title" => .titleAsc
  | _ => .createdAtDesc

/-- BSON comparison of two like subdocuments, field by field in schema order
(user, then createdAt). -/
def likeEntryLe (x y : Like) : Bool :=
  Nat.blt x.user y.user || (x.user == y.user && Nat.ble x.likedAt y.likedAt)

/-- The maximal element of a like array under the BSON element order; `none`
for the empty array (which MongoDB treats as minimal in a descending sort). -/
def maxLike (ls : List Like) : Option Like :=
  ls.foldl (fun acc l =>
    match acc with
    | none => some l
    | some m => if likeEntryLe m l then some l else some m) none

def likeKeyLe (a b : Option Like) : Bool :=
  match a, b with
  | none, _ => true
  | some _, none => false
  | some x, some y => likeEntryLe x y

/-- The document order used by the ODM for each sort specification.
`likesDesc` models MongoDB semantics for sorting on an array field in
descending direction: documents are compared by the maximal element of the
array, not by its length. -/
def leB : SortSpec → Post → Post → Bool
  | .createdAtDesc => fun a b => Nat.ble b.createdAt a.createdAt
  | .createdAtAsc => fun a b => Nat.ble a.createdAt b.createdAt
  | .viewCountDesc => fun a b => Nat.ble b.viewCount a.viewCount
  | .likesDesc => fun a b => likeKeyLe (maxLike b.likes) (maxLike a.likes)
  | .titleAsc => fun a b => decide (a.title ≤ b.title)

/-- The ODM sort step (`.sort(sortBy)`), modelled as a stable sort by the
document order of the sort specification. -/
def sortPosts (s : SortSpec) (l : List Post) : List Post :=
  List.insertionSort (fun a b => leB s a b = true) l

/-- The JSON body of a listing response: `count`, `total`, the pagination
descriptor (presence of `next` / `prev`), and the page of posts. -/
structure ListResult where
  count : Nat
  total : Nat
  hasNext : Bool
  hasPrev : Bool
  posts : List Post
  deriving DecidableEq

/-- GET / (posts.js lines 12-99): parse page/limit, build the filter and the
sort, count the total over the same filter, take the page
`skip(startIndex).limit(limit)`, and emit the pagination descriptor. -/
def listPosts (db : Db) (qp : QueryParams) : ListResult :=
  let page := parseOr qp.page 1
  let limit := parseOr qp.limit 10
  let startIndex := (page - 1) * limit
  let matched := db.filter (matchesListQuery qp)
  let total := matched.length
  let sorted := sortPosts (sortSpecOf qp.sortBy) matched
  let posts := (sorted.drop startIndex).take limit
  { count := posts.length
    total := total
    hasNext := decide (startIndex + limit < total)
    hasPrev := decide (0 < startIndex)
    posts := posts }

/-- The filter built by GET /my/posts (posts.js lines 110-116): always
`author = req.user.id`, plus an exact status match when given. -/
def matchesMyQuery (u : User) (qp : QueryParams) (p : Post) : Bool :=
  (p.author == u.uid)
  && (match qp.status with
      | none => true
      | some s => p.status == s)

/-- GET /my/posts (posts.js lines 104-152): same pagination as GET /, filter
by author (plus optional status), always sorted `{ createdAt: -1 }`.  The
category / tags / search / sortBy parameters are never read. -/
def myPosts (db : Db) (u : User) (qp : QueryParams) : ListResult :=
  let page := parseOr qp.page 1
  let limit := parseOr qp.limit 10
  let startIndex := (page - 1) * limit
  let matched := db.filter (matchesMyQuery u qp)
  let total := matched.length
  let sorted := sortPosts SortSpec.createdAtDesc matched
  let posts := (sorted.drop startIndex).take limit
  { count := posts.length
    total := total
    hasNext := decide (startIndex + limit < total)
    hasPrev := decide (0 < startIndex)
    posts := posts }

/-- Outcome of GET /:id — the handler has exactly two outcomes for an id
that parses: a 404 "Post not found" response (also used to hide
non-published posts) or a 200 response carrying the post. -/
inductive GetResult where
  | notFound : GetResult
  | ok : Post → GetResult
  deriving DecidableEq

/-- GET /:id (posts.js lines 157-190).  A non-published post is hidden
(404) from every caller whose id differs from the author, role never
consulted; on success the view counter is incremented and saved, and the
incremented post is returned. -/
def getPost (db : Db) (i : Nat) (u : Option User) : GetResult × Db :=
  match findById db i with
  | none => (.notFound, db)
  | some post =>
    if !(post.status == "published")
        && (match u with
            | none => true
            | some v => !(v.uid == post.author)) then
      (.notFound, db)
    else
      let p' := { post with viewCount := post.viewCount + 1 }
      (.ok p', updateDb db i p')

/-- Iterated single-post fetches: perform GET /:id `n` times, threading the
store. -/
def fetchN : Nat → Db → Nat → Option User → Db
  | 0, db, _, _ => db
  | n + 1, db, i, u => fetchN n (getPost db i u).2 i u

/-- A request body for POST / and PUT /:id, after the validation middleware:
each present field is a schema path that the ODM will set.  The handlers pass
`req.body` through unfiltered, so every schema path of the Post model can
appear, including author, likes, comments and viewCount. -/
structure Payload where
  title? : Option String
  content? : Option String
  category? : Option String
  tags? : Option (List String)
  status? : Option String
  author? : Option Nat
  likes? : Option (List Like)
  comments? : Option (List Comment)
  viewCount? : Option Nat
  deriving DecidableEq

/-- The effect of `findByIdAndUpdate(id, body)`: each field present in the
body is `$set`, absent fields are untouched. -/
def applyUpdate (p : Post) (b : Payload) : Post :=
  { p with
    title := b.title?.getD p.title
    content := b.content?.getD p.content
    category := b.category?.getD p.category
    tags := b.tags?.getD p.tags
    status := b.status?.getD p.status
    author := b.author?.getD p.author
    likes := b.likes?.getD p.likes
    comments := b.comments?.getD p.comments
    viewCount := b.viewCount?.getD p.viewCount }

/-- Outcome of PUT /:id. -/
inductive MutResult where
  | notFound : MutResult
  | forbidden : MutResult
  | ok : Post → MutResult
  deriving DecidableEq

/-- PUT /:id (posts.js lines 218-250): 404 when absent; a 401 rejection when
the caller is neither the author nor an admin; otherwise
`findByIdAndUpdate(id, req.body)`. -/
def updatePost (db : Db) (i : Nat) (u : User) (b : Payload) : MutResult × Db :=
  match findById db i with
  | none => (.notFound, db)
  | some post =>
    if !(post.author == u.uid) && !(u.role == "admin") then
      (.forbidden, db)
    else
      let p' := applyUpdate post b
      (.ok p', updateDb db i p')

/-- Outcome of DELETE /:id. -/
inductive DelResult where
  | notFound : DelResult
  | forbidden : DelResult
  | okDeleted : DelResult
  deriving DecidableEq

/-- DELETE /:id (posts.js lines 255-283): 404 when absent; 401 rejection for
a caller who is neither author nor admin; otherwise `findByIdAndDelete`. -/
def deletePost (db : Db) (i : Nat) (u : User) : DelResult × Db :=
  match findById db i with
  | none => (.notFound, db)
  | some post =>
    if !(post.author == u.uid) && !(u.role == "admin") then
      (.forbidden, db)
    else
      (.okDeleted, removeById db i)

/-- POST / (posts.js lines 195-213): `req.body.author = req.user.id` then
`Post.create(req.body)`; absent fields take the schema defaults.  `newId`
and `now` stand for the fresh ObjectId and the creation timestamp. -/
def createPost (db : Db) (u : User) (b : Payload) (newId now : Nat) :
    Db × Post :=
  let p : Post :=
    { pid := newId
      title := b.title?.getD ""
      content := b.content?.getD ""
      category := b.category?.getD ""
      tags := b.tags?.getD []
      status := b.status?.getD "draft"
      author := u.uid
      likes := b.likes?.getD []
      comments := b.comments?.getD []
      viewCount := b.viewCount?.getD 0
      createdAt := now }
  (db ++ [p], p)

/-- Outcome of PUT /:id/like: 404, or 200 with the `liked` flag and the new
like count. -/
inductive LikeResult where
  | notFound : LikeResult
  | ok : Bool → Nat → LikeResult
  deriving DecidableEq

/-- PUT /:id/like (posts.js lines 288-328): `findIndex` of the caller in the
like list; if found, `splice` that entry out (unlike), else `unshift` a new
entry (like); save and report the new length.  `now` is the timestamp the
schema default assigns to the new like entry. -/
def likeToggle (db : Db) (i : Nat) (u : User) (now : Nat) :
    LikeResult × Db :=
  match findById db i with
  | none => (.notFound, db)
  | some post =>
    match post.likes.findIdx? (fun l => l.user == u.uid) with
    | some idx =>
      let p' := { post with likes := post.likes.eraseIdx idx }
      (.ok false p'.likes.length, updateDb db i p')
    | none =>
      let p' := { post with likes := ⟨u.uid, now⟩ :: post.likes }
      (.ok true p'.likes.length, updateDb db i p')

/-- Outcome of POST /:id/comments. -/
inductive AddCommentResult where
  | notFound : AddCommentResult
  | ok : Comment → AddCommentResult
  deriving DecidableEq

/-- POST /:id/comments (posts.js lines 333-363): `unshift` the new comment
and return `comments[0]`.  `newCid` and `now` stand for the fresh comment id
and timestamp. -/
def addComment (db : Db) (i : Nat) (u : User) (text : String)
    (newCid now : Nat) : AddCommentResult × Db :=
  match findById db i with
  | none => (.notFound, db)
  | some post =>
    let c : Comment := { cid := newCid, user := u.uid, text := text, commentedAt := now }
    let p' := { post with comments := c :: post.comments }
    (.ok c, updateDb db i p')

/-- Outcome of DELETE /:id/comments/:commentId. -/
inductive DelCommentResult where
  | postNotFound : DelCommentResult
  | commentNotFound : DelCommentResult
  | forbidden : DelCommentResult
  | okDeleted : DelCommentResult
  deriving DecidableEq

/-- DELETE /:id/comments/:commentId (posts.js lines 368-411): 404 when the
post or the comment is absent; 401 rejection unless the caller is the
comment author, the post author, or an admin; otherwise `findIndex` of the
comment id and `splice` that entry out.  The inner `none` branch is
unreachable because `find?` succeeded on the same predicate. -/
def deleteComment (db : Db) (i : Nat) (cid : Nat) (u : User) :
    DelCommentResult × Db :=
  match findById db i with
  | none => (.postNotFound, db)
  | some post =>
    match post.comments.find? (fun c => c.cid == cid) with
    | none => (.commentNotFound, db)
    | some c =>
      if !(c.user == u.uid) && !(post.author == u.uid) && !(u.role == "admin") then
        (.forbidden, db)
      else
        match post.comments.findIdx? (fun c => c.cid == cid) with
        | some idx =>
          let p' := { post with comments := post.comments.eraseIdx idx }
          (.okDeleted, updateDb db i p')
        | none => (.okDeleted, db)

/-! ### Basic store lemmas -/

theorem findById_pid {db : Db} {i : Nat} {p : Post}
    (h : findById db i = some p) : p.pid = i := by
  simp only [findById] at h
  have := List.find?_some h
  simpa using this

theorem findById_updateDb {db : Db} {i : Nat} {p' : Post}
    (h : (findById db i).isSome = true) (hp : p'.pid = i) :
    findById (updateDb db i p') i = some p' := by
  induction db with
  | nil => simp [findById] at h
  | cons q t ih =>
    by_cases hq : q.pid = i
    · simp [findById, updateDb, hq, hp]
    · simp only [findById, updateDb, List.map_cons] at *
      rw [if_neg (by simp [hq])]
      rw [List.find?_cons_of_neg _ (by simp [hq])] at h ⊢
      exact ih h

theorem mem_updateDb {db : Db} {i : Nat} {p' q : Post}
    (h : q ∈ updateDb db i p') : q = p' ∨ q ∈ db := by
  simp only [updateDb, List.mem_map] at h
  obtain ⟨a, ha, rfl⟩ := h
  by_cases hq : (a.pid == i) = true
  · rw [if_pos hq]; exact Or.inl rfl
  · rw [if_neg hq]; exact Or.inr ha

/-! ### Single post retrieval (GET /:id) -/

/-- Whether the handler treats the caller as allowed to see the post: the
code checks only `req.user.id === post.author`, never the role. -/
def isAuthor (u : Option User) (p : Post) : Bool :=
  match u with
  | none => false
  | some v => v.uid == p.author

/-- The visibility condition of GET /:id: published, or fetched by the
author. -/
def visibleTo (u : Option User) (p : Post) : Prop :=
  p.status = "published" ∨ isAuthor u p = true

instance (u : Option User) (p : Post) : Decidable (visibleTo u p) :=
  inferInstanceAs (Decidable (p.status = "published" ∨ isAuthor u p = true))

theorem getPost_cond (u : Option User) (p : Post) :
    (match u with | none => true | some v => !(v.uid == p.author))
      = !(isAuthor u p) := by
  cases u <;> rfl

theorem getPost_spec (db : Db) (i : Nat) (u : Option User) (p : Post)
    (h : findById db i = some p) :
    (¬ visibleTo u p → getPost db i u = (GetResult.notFound, db)) ∧
    (visibleTo u p →
      getPost db i u =
        (GetResult.ok { p with viewCount := p.viewCount + 1 },
          updateDb db i { p with viewCount := p.viewCount + 1 })) := by
  have hcond : (!(p.status == "published") && !(isAuthor u p)) = true
      ↔ ¬ visibleTo u p := by
    simp [visibleTo, not_or]
  constructor
  · intro hv
    unfold getPost
    rw [h]
    simp only [getPost_cond]
    rw [if_pos (hcond.mpr hv)]
  · intro hv
    unfold getPost
    rw [h]
    simp only [getPost_cond]
    rw [if_neg (fun hc => absurd hv (fun _ => (hcond.mp hc) hv))]

/-- C4: a post whose status is not published is answered with the 404
NotFound response (the only rejection GET /:id has — there is no Forbidden
branch) for every caller other than the author: anonymous, another user, or
an admin, since the handler never consults the role.  The post is returned
exactly when it is published or the caller is its author. -/
theorem c4_nonpublished_hidden_as_notFound (db : Db) (i : Nat)
    (u : Option User) (p : Post) (h : findById db i = some p) :
    ((getPost db i u).1 = GetResult.notFound ↔ ¬ visibleTo u p) ∧
    (visibleTo u p → (getPost db i u).1 =
      GetResult.ok { p with viewCount := p.viewCount + 1 }) := by
  obtain ⟨h1, h2⟩ := getPost_spec db i u p h
  constructor
  · constructor
    · intro hnf hv
      rw [h2 hv] at hnf
      simp at hnf
    · intro hv
      rw [h1 hv]
  · intro hv
    rw [h2 hv]

def exDraft : Post :=
  { pid := 1, title := "t", content := "c", category := "Tech", tags := []
    status := "draft", author := 1, likes := [], comments := []
    viewCount := 0, createdAt := 0 }

def exAdmin : User := { uid := 2, role := "admin" }

theorem c4_witness :
    (getPost [exDraft] 1 (some exAdmin)).1 = GetResult.notFound :=
  (c4_nonpublished_hidden_as_notFound [exDraft] 1 (some exAdmin) exDraft
    (by decide)).1.mpr (by decide)

/-- C5: every successful GET /:id adds exactly 1 to the persisted view
counter and changes nothing else, for any caller the post is visible to;
`n` successive fetches add exactly `n`, and the next fetch still succeeds. -/
theorem c5_view_count_increments (i : Nat) (u : Option User) (n : Nat) :
    ∀ (db : Db) (p : Post), findById db i = some p → visibleTo u p →
      findById (fetchN n db i u) i =
        some { p with viewCount := p.viewCount + n } ∧
      (getPost (fetchN n db i u) i u).1 =
        GetResult.ok { p with viewCount := p.viewCount + n + 1 } := by
  induction n with
  | zero =>
    intro db p h hvis
    refine ⟨h, ?_⟩
    show (getPost db i u).1 = _
    rw [(getPost_spec db i u p h).2 hvis]
  | succ n ih =>
    intro db p h hvis
    have hpair := (getPost_spec db i u p h).2 hvis
    have hfind1 : findById (getPost db i u).2 i =
        some { p with viewCount := p.viewCount + 1 } := by
      rw [hpair]
      exact findById_updateDb (by rw [h]; rfl)
        (by simpa using findById_pid h)
    have hvis1 : visibleTo u { p with viewCount := p.viewCount + 1 } := hvis
    obtain ⟨ih1, ih2⟩ := ih (getPost db i u).2 _ hfind1 hvis1
    constructor
    · show findById (fetchN n (getPost db i u).2 i u) i = _
      rw [show p.viewCount + (n + 1) = p.viewCount + 1 + n from by omega]
      exact ih1
    · show (getPost (fetchN n (getPost db i u).2 i u) i u).1 = _
      rw [show p.viewCount + (n + 1) + 1 = p.viewCount + 1 + n + 1 from by omega]
      exact ih2

def exPub : Post :=
  { pid := 1, title := "A", content := "B", category := "Tech", tags := []
    status := "published", author := 1, likes := [], comments := []
    viewCount := 0, createdAt := 0 }

theorem c5_witness :
    findById (fetchN 2 [exPub] 1 none) 1 =
      some { exPub with viewCount := exPub.viewCount + 2 } ∧
    (getPost (fetchN 2 [exPub] 1 none) 1 none).1 =
      GetResult.ok { exPub with viewCount := exPub.viewCount + 2 + 1 } :=
  c5_view_count_increments 1 none 2 [exPub] exPub (by decide)
    (Or.inl (by decide))

/-! ### Post update / delete authorization -/

theorem ownership_cond (p : Post) (u : User) :
    (!(p.author == u.uid) && !(u.role == "admin")) = true
      ↔ ¬ (p.author = u.uid ∨ u.role = "admin") := by
  simp [not_or]

theorem updatePost_eq (db : Db) (i : Nat) (u : User) (b : Payload)
    (p : Post) (h : findById db i = some p) :
    updatePost db i u b =
      if (!(p.author == u.uid) && !(u.role == "admin")) = true
      then (MutResult.forbidden, db)
      else (MutResult.ok (applyUpdate p b), updateDb db i (applyUpdate p b)) := by
  unfold updatePost
  rw [h]

theorem deletePost_eq (db : Db) (i : Nat) (u : User)
    (p : Post) (h : findById db i = some p) :
    deletePost db i u =
      if (!(p.author == u.uid) && !(u.role == "admin")) = true
      then (DelResult.forbidden, db)
      else (DelResult.okDeleted, removeById db i) := by
  unfold deletePost
  rw [h]

/-- C8: on an existing post, PUT /:id and DELETE /:id are rejected with the
401 ownership rejection and leave the store untouched whenever the caller is
neither the author nor an admin; an author or admin caller goes through to
the write. -/
theorem c8_update_delete_ownership (db : Db) (i : Nat) (u : User)
    (b : Payload) (p : Post) (h : findById db i = some p) :
    (¬ (p.author = u.uid ∨ u.role = "admin") →
      updatePost db i u b = (MutResult.forbidden, db) ∧
      deletePost db i u = (DelResult.forbidden, db)) ∧
    ((p.author = u.uid ∨ u.role = "admin") →
      updatePost db i u b =
        (MutResult.ok (applyUpdate p b), updateDb db i (applyUpdate p b)) ∧
      deletePost db i u = (DelResult.okDeleted, removeById db i)) := by
  rw [updatePost_eq db i u b p h, deletePost_eq db i u p h]
  constructor
  · intro hv
    rw [if_pos ((ownership_cond p u).mpr hv),
      if_pos ((ownership_cond p u).mpr hv)]
    exact ⟨rfl, rfl⟩
  · intro hv
    rw [if_neg (fun hc => (ownership_cond p u).mp hc hv),
      if_neg (fun hc => (ownership_cond p u).mp hc hv)]
    exact ⟨rfl, rfl⟩

def exIntruder : User := { uid := 2, role := "user" }

def emptyPayload : Payload :=
  { title? := none, content? := none, category? := none, tags? := none
    status? := none, author? := none, likes? := none, comments? := none
    viewCount? := none }

theorem c8_witness :
    updatePost [exPub] 1 exIntruder emptyPayload =
      (MutResult.forbidden, [exPub]) ∧
    deletePost [exPub] 1 exIntruder = (DelResult.forbidden, [exPub]) :=
  (c8_update_delete_ownership [exPub] 1 exIntruder emptyPayload exPub
    (by decide)).1 (by decide)

/-! ### Author mutability through the update payload (C1) -/

def exAuthorUser : User := { uid := 1, role := "user" }

/-- An update body carrying an `author` field, which the handler passes to
`findByIdAndUpdate` unfiltered. -/
def authorPayload : Payload :=
  { title? := none, content? := none, category? := none, tags? := none
    status? := none, author? := some 2, likes? := none, comments? := none
    viewCount? := none }

/-- C1 counterexample: the post was created with author 1, and a PUT whose
body contains `author: 2` (sent by the author themselves) leaves the stored
post with author 2 — the update payload can change a post's author. -/
theorem c1_counterexample :
    exPub.author = 1 ∧
    (findById (updatePost [exPub] 1 exAuthorUser authorPayload).2 1).map
      Post.author = some 2 := by decide

/-- C1 (amended): the author reference survives every update whose payload
does not itself carry an `author` field; only a payload containing `author`
can move it, because PUT /:id hands `req.body` to `findByIdAndUpdate`
unfiltered while only POST / forces the author. -/
theorem c1_author_preserved_without_author_field (db : Db) (i : Nat)
    (u : User) (b : Payload) (p p' : Post) (hb : b.author? = none)
    (h : findById db i = some p)
    (h' : findById (updatePost db i u b).2 i = some p') :
    p'.author = p.author := by
  rw [updatePost_eq db i u b p h] at h'
  by_cases hc : (!(p.author == u.uid) && !(u.role == "admin")) = true
  · rw [if_pos hc] at h'
    have h2 : findById db i = some p' := h'
    rw [h] at h2
    injection h2 with h3
    rw [← h3]
  · rw [if_neg hc] at h'
    have h2 : findById (updateDb db i (applyUpdate p b)) i = some p' := h'
    rw [findById_updateDb (by rw [h]; rfl)
      (by simpa [applyUpdate] using findById_pid h)] at h2
    injection h2 with h3
    rw [← h3]
    simp [applyUpdate, hb]

def titlePayload : Payload :=
  { title? := some "New title", content? := none, category? := none
    tags? := none, status? := none, author? := none, likes? := none
    comments? := none, viewCount? := none }

theorem c1_witness :
    (applyUpdate exPub titlePayload).author = exPub.author :=
  c1_author_preserved_without_author_field [exPub] 1 exAuthorUser
    titlePayload exPub (applyUpdate exPub titlePayload) rfl (by decide)
    (by decide)

/-! ### Like toggle (C6) -/

theorem likeToggle_eq (db : Db) (i : Nat) (u : User) (now : Nat) (p : Post)
    (h : findById db i = some p) :
    likeToggle db i u now =
      match p.likes.findIdx? (fun l => l.user == u.uid) with
      | some idx =>
        (LikeResult.ok false (p.likes.eraseIdx idx).length,
          updateDb db i { p with likes := p.likes.eraseIdx idx })
      | none =>
        (LikeResult.ok true ((⟨u.uid, now⟩ : Like) :: p.likes).length,
          updateDb db i { p with likes := ⟨u.uid, now⟩ :: p.likes }) := by
  unfold likeToggle
  rw [h]

/-- C6: toggling the like of a user who has not liked the post, twice in a
row, answers liked true with count + 1 then liked false with the original
count, and the stored post afterwards is exactly the original one (same like
list, same everything). -/
theorem c6_like_toggle_involutive (db : Db) (i : Nat) (u : User)
    (now1 now2 : Nat) (p : Post) (h : findById db i = some p)
    (habs : ∀ l ∈ p.likes, l.user ≠ u.uid) :
    (likeToggle db i u now1).1 = LikeResult.ok true (p.likes.length + 1) ∧
    (likeToggle (likeToggle db i u now1).2 i u now2).1 =
      LikeResult.ok false p.likes.length ∧
    findById (likeToggle (likeToggle db i u now1).2 i u now2).2 i = some p := by
  have hidx : p.likes.findIdx? (fun l => l.user == u.uid) = none := by
    rw [List.findIdx?_eq_none_iff]
    intro l hl
    simpa using habs l hl
  have h1 : likeToggle db i u now1 =
      (LikeResult.ok true ((⟨u.uid, now1⟩ : Like) :: p.likes).length,
        updateDb db i { p with likes := ⟨u.uid, now1⟩ :: p.likes }) := by
    rw [likeToggle_eq db i u now1 p h, hidx]
  have hf1 : findById (likeToggle db i u now1).2 i =
      some { p with likes := ⟨u.uid, now1⟩ :: p.likes } := by
    rw [h1]
    exact findById_updateDb (by rw [h]; rfl) (by simpa using findById_pid h)
  have hidx2 : ({ p with likes := ⟨u.uid, now1⟩ :: p.likes } : Post).likes.findIdx?
      (fun l => l.user == u.uid) = some 0 := by
    simp
  have h2 : likeToggle (likeToggle db i u now1).2 i u now2 =
      (LikeResult.ok false
          ((({ p with likes := ⟨u.uid, now1⟩ :: p.likes } : Post).likes.eraseIdx 0).length),
        updateDb (likeToggle db i u now1).2 i
          { ({ p with likes := ⟨u.uid, now1⟩ :: p.likes } : Post) with
            likes := ({ p with likes := ⟨u.uid, now1⟩ :: p.likes } : Post).likes.eraseIdx 0 }) := by
    rw [likeToggle_eq _ i u now2 _ hf1, hidx2]
  refine ⟨?_, ?_, ?_⟩
  · rw [h1]
    rfl
  · rw [h2]
    rfl
  · rw [h2]
    exact findById_updateDb (by rw [hf1]; rfl) (by simpa using findById_pid h)

theorem c6_witness :
    (likeToggle [exPub] 1 exIntruder 5).1 =
      LikeResult.ok true (exPub.likes.length + 1) ∧
    (likeToggle (likeToggle [exPub] 1 exIntruder 5).2 1 exIntruder 6).1 =
      LikeResult.ok false exPub.likes.length ∧
    findById (likeToggle (likeToggle [exPub] 1 exIntruder 5).2 1 exIntruder 6).2 1
      = some exPub :=
  c6_like_toggle_involutive [exPub] 1 exIntruder 5 6 exPub (by decide)
    (by decide)

/-! ### Comment deletion (C9) -/

theorem find?_splits {α : Type _} (pred : α → Bool) :
    ∀ (l : List α) (c : α), l.find? pred = some c →
      ∃ i l1 l2, l.findIdx? pred = some i ∧ l = l1 ++ c :: l2 ∧
        (∀ x ∈ l1, pred x = false) ∧ l.eraseIdx i = l1 ++ l2 := by
  intro l
  induction l with
  | nil => intro c h; simp at h
  | cons a t ih =>
    intro c h
    by_cases ha : pred a = true
    · rw [List.find?_cons_of_pos _ ha] at h
      injection h with h1
      subst h1
      refine ⟨0, [], t, ?_, rfl, ?_, rfl⟩
      · rw [List.findIdx?_cons, if_pos ha]
      · intro x hx; cases hx
    · have ha' : pred a = false := by
        cases hpa : pred a
        · rfl
        · exact absurd hpa ha
      rw [List.find?_cons_of_neg _ (by simp [ha'])] at h
      obtain ⟨i, l1, l2, hidx, hsplit, hl1, herase⟩ := ih c h
      refine ⟨i + 1, a :: l1, l2, ?_, ?_, ?_, ?_⟩
      · rw [List.findIdx?_cons, if_neg (by simp [ha']), List.findIdx?_succ, hidx]
        rfl
      · rw [List.cons_append, ← hsplit]
      · intro x hx
        rcases List.mem_cons.mp hx with rfl | hx'
        · exact ha'
        · exact hl1 x hx'
      · rw [List.eraseIdx_cons_succ, herase]
        rfl

theorem deleteComment_eq (db : Db) (i cid : Nat) (u : User) (p : Post)
    (h : findById db i = some p) :
    deleteComment db i cid u =
      match p.comments.find? (fun c => c.cid == cid) with
      | none => (DelCommentResult.commentNotFound, db)
      | some c =>
        if (!(c.user == u.uid) && !(p.author == u.uid) && !(u.role == "admin")) = true then
          (DelCommentResult.forbidden, db)
        else
          match p.comments.findIdx? (fun c => c.cid == cid) with
          | some idx =>
            (DelCommentResult.okDeleted,
              updateDb db i { p with comments := p.comments.eraseIdx idx })
          | none => (DelCommentResult.okDeleted, db) := by
  unfold deleteComment
  rw [h]

theorem deleteComment_eq_found (db : Db) (i cid : Nat) (u : User) (p : Post)
    (c : Comment) (h : findById db i = some p)
    (hc : p.comments.find? (fun c => c.cid == cid) = some c) :
    deleteComment db i cid u =
      if (!(c.user == u.uid) && !(p.author == u.uid) && !(u.role == "admin")) = true then
        (DelCommentResult.forbidden, db)
      else
        match p.comments.findIdx? (fun c => c.cid == cid) with
        | some idx =>
          (DelCommentResult.okDeleted,
            updateDb db i { p with comments := p.comments.eraseIdx idx })
        | none => (DelCommentResult.okDeleted, db) := by
  rw [deleteComment_eq db i cid u p h, hc]

theorem comment_auth_cond (c : Comment) (p : Post) (u : User) :
    (!(c.user == u.uid) && !(p.author == u.uid) && !(u.role == "admin")) = true
      ↔ ¬ (c.user = u.uid ∨ p.author = u.uid ∨ u.role = "admin") := by
  simp [not_or, and_assoc]

/-- C9: on an existing post, deleting a comment id that is not in the
comment list answers the 404 response with the store untouched; when the id
is found, the delete succeeds exactly for the comment author, the post
author, or an admin (so a commenter who does not own the post succeeds), and
removes exactly the first entry carrying that id; any other caller gets the
401 rejection with the store untouched. -/
theorem c9_comment_delete_rules (db : Db) (i cid : Nat) (u : User) (p : Post)
    (h : findById db i = some p) :
    (p.comments.find? (fun c => c.cid == cid) = none →
      deleteComment db i cid u = (DelCommentResult.commentNotFound, db)) ∧
    (∀ c, p.comments.find? (fun c => c.cid == cid) = some c →
      (¬ (c.user = u.uid ∨ p.author = u.uid ∨ u.role = "admin") →
        deleteComment db i cid u = (DelCommentResult.forbidden, db)) ∧
      ((c.user = u.uid ∨ p.author = u.uid ∨ u.role = "admin") →
        ∃ l1 l2, p.comments = l1 ++ c :: l2 ∧ (∀ x ∈ l1, ¬ x.cid = cid) ∧
          deleteComment db i cid u =
            (DelCommentResult.okDeleted,
              updateDb db i { p with comments := l1 ++ l2 }))) := by
  constructor
  · intro hn
    rw [deleteComment_eq db i cid u p h, hn]
  · intro c hc
    constructor
    · intro hv
      rw [deleteComment_eq_found db i cid u p c h hc,
        if_pos ((comment_auth_cond c p u).mpr hv)]
    · intro hv
      obtain ⟨idx, l1, l2, hidx, hsplit, hl1, herase⟩ :=
        find?_splits (fun c => c.cid == cid) p.comments c hc
      refine ⟨l1, l2, hsplit, ?_, ?_⟩
      · intro x hx
        simpa using hl1 x hx
      · rw [deleteComment_eq_found db i cid u p c h hc,
          if_neg (fun hcc => (comment_auth_cond c p u).mp hcc hv), hidx]
        show (DelCommentResult.okDeleted,
            updateDb db i { p with comments := p.comments.eraseIdx idx }) = _
        rw [herase]

def exComment : Comment := { cid := 10, user := 3, text := "hi", commentedAt := 0 }

def exPostC : Post :=
  { pid := 1, title := "A", content := "B", category := "Tech", tags := []
    status := "published", author := 1, likes := [], comments := [exComment]
    viewCount := 0, createdAt := 0 }

def exCommenter : User := { uid := 3, role := "user" }

theorem c9_witness :
    ∃ l1 l2, exPostC.comments = l1 ++ exComment :: l2 ∧
      (∀ x ∈ l1, ¬ x.cid = 10) ∧
      deleteComment [exPostC] 1 10 exCommenter =
        (DelCommentResult.okDeleted,
          updateDb [exPostC] 1 { exPostC with comments := l1 ++ l2 }) :=
  ((c9_comment_delete_rules [exPostC] 1 10 exCommenter exPostC (by decide)).2
    exComment (by decide)).2 (Or.inl (by decide))

/-! ### At most one like per user (C7) -/

/-- The invariant: no two entries of the like list reference the same
user. -/
def likesNoDup (p : Post) : Prop :=
  p.likes.Pairwise (fun a b => a.user ≠ b.user)

instance (a b : Like) : Decidable (a.user ≠ b.user) :=
  inferInstanceAs (Decidable ¬(a.user = b.user))

instance (p : Post) : Decidable (likesNoDup p) :=
  inferInstanceAs
    (Decidable (List.Pairwise (fun a b : Like => a.user ≠ b.user) p.likes))

def dbLikesNoDup (db : Db) : Prop := ∀ p ∈ db, likesNoDup p

instance (db : Db) : Decidable (dbLikesNoDup db) :=
  List.decidableBAll _ db

theorem findById_mem {db : Db} {i : Nat} {p : Post}
    (h : findById db i = some p) : p ∈ db := by
  simp only [findById] at h
  exact List.mem_of_find?_eq_some h

theorem dbLikesNoDup_updateDb {db : Db} {i : Nat} {p' : Post}
    (hdb : dbLikesNoDup db) (hp' : likesNoDup p') :
    dbLikesNoDup (updateDb db i p') := by
  intro q hq
  rcases mem_updateDb hq with rfl | hq'
  · exact hp'
  · exact hdb q hq'

/-- An update body carrying a duplicated `likes` array, which PUT /:id
passes to `findByIdAndUpdate` unfiltered. -/
def dupLikesPayload : Payload :=
  { title? := none, content? := none, category? := none, tags? := none
    status? := none, author? := none
    likes? := some [{ user := 7, likedAt := 0 }, { user := 7, likedAt := 1 }]
    comments? := none, viewCount? := none }

/-- C7 counterexample: a store satisfying the at-most-one-like-per-user
invariant stops satisfying it after a PUT /:id (by the post's author) whose
body contains a likes array with two entries for user 7 — the update
operation does not preserve the invariant. -/
theorem c7_counterexample :
    dbLikesNoDup [exPub] ∧
    ¬ dbLikesNoDup (updatePost [exPub] 1 exAuthorUser dupLikesPayload).2 := by
  constructor <;> decide

/-- C7 (amended): the at-most-one-like-per-user invariant is preserved by
the like toggle (lookup-before-insert), by comment add/delete (likes
untouched), and by update and create whenever the payload does not itself
carry a likes field; a payload supplying likes is stored verbatim and can
break it. -/
theorem c7_like_uniqueness_preserved (db : Db) (hdb : dbLikesNoDup db) :
    (∀ i u now, dbLikesNoDup (likeToggle db i u now).2) ∧
    (∀ i u text newCid now,
      dbLikesNoDup (addComment db i u text newCid now).2) ∧
    (∀ i cid u, dbLikesNoDup (deleteComment db i cid u).2) ∧
    (∀ i u b, b.likes? = none → dbLikesNoDup (updatePost db i u b).2) ∧
    (∀ u b newId now, b.likes? = none →
      dbLikesNoDup (createPost db u b newId now).1) := by
  refine ⟨?_, ?_, ?_, ?_, ?_⟩
  · intro i u now
    rcases hfb : findById db i with _ | p
    · have hnone : likeToggle db i u now = (LikeResult.notFound, db) := by
        unfold likeToggle; rw [hfb]
      rw [hnone]; exact hdb
    · rw [likeToggle_eq db i u now p hfb]
      rcases hidx : p.likes.findIdx? (fun l => l.user == u.uid) with _ | idx
      · rw [hidx]
        show dbLikesNoDup (updateDb db i { p with likes := ⟨u.uid, now⟩ :: p.likes })
        apply dbLikesNoDup_updateDb hdb
        show List.Pairwise (fun a b => a.user ≠ b.user)
          ((⟨u.uid, now⟩ : Like) :: p.likes)
        refine List.Pairwise.cons (fun y hy => ?_) (hdb p (findById_mem hfb))
        have hy' := List.findIdx?_eq_none_iff.mp hidx y hy
        intro heq
        exact absurd heq.symm (by simpa using hy')
      · rw [hidx]
        show dbLikesNoDup (updateDb db i { p with likes := p.likes.eraseIdx idx })
        apply dbLikesNoDup_updateDb hdb
        show List.Pairwise (fun a b => a.user ≠ b.user) (p.likes.eraseIdx idx)
        exact List.Pairwise.sublist (List.eraseIdx_sublist p.likes idx)
          (hdb p (findById_mem hfb))
  · intro i u text newCid now
    rcases hfb : findById db i with _ | p
    · have hnone : addComment db i u text newCid now =
          (AddCommentResult.notFound, db) := by
        unfold addComment; rw [hfb]
      rw [hnone]; exact hdb
    · have hsome : (addComment db i u text newCid now).2 =
          updateDb db i
            { p with comments := ⟨newCid, u.uid, text, now⟩ :: p.comments } := by
        unfold addComment; rw [hfb]
      rw [hsome]
      exact dbLikesNoDup_updateDb hdb (hdb p (findById_mem hfb))
  · intro i cid u
    rcases hfb : findById db i with _ | p
    · have hnone : deleteComment db i cid u =
          (DelCommentResult.postNotFound, db) := by
        unfold deleteComment; rw [hfb]
      rw [hnone]; exact hdb
    · rcases hc : p.comments.find? (fun c => c.cid == cid) with _ | c
      · have hnone : deleteComment db i cid u =
            (DelCommentResult.commentNotFound, db) := by
          rw [deleteComment_eq db i cid u p hfb, hc]
        rw [hnone]; exact hdb
      · by_cases hauth : (!(c.user == u.uid) && !(p.author == u.uid)
            && !(u.role == "admin")) = true
        · have heq : deleteComment db i cid u =
              (DelCommentResult.forbidden, db) := by
            rw [deleteComment_eq_found db i cid u p c hfb hc, if_pos hauth]
          rw [heq]; exact hdb
        · rcases hidx : p.comments.findIdx? (fun c => c.cid == cid) with _ | idx
          · have heq : deleteComment db i cid u =
                (DelCommentResult.okDeleted, db) := by
              rw [deleteComment_eq_found db i cid u p c hfb hc, if_neg hauth,
                hidx]
            rw [heq]; exact hdb
          · have heq : deleteComment db i cid u =
                (DelCommentResult.okDeleted,
                  updateDb db i { p with comments := p.comments.eraseIdx idx }) := by
              rw [deleteComment_eq_found db i cid u p c hfb hc, if_neg hauth,
                hidx]
            rw [heq]
            exact dbLikesNoDup_updateDb hdb (hdb p (findById_mem hfb))
  · intro i u b hb
    rcases hfb : findById db i with _ | p
    · have hnone : updatePost db i u b = (MutResult.notFound, db) := by
        unfold updatePost; rw [hfb]
      rw [hnone]; exact hdb
    · rw [updatePost_eq db i u b p hfb]
      split
      · exact hdb
      · apply dbLikesNoDup_updateDb hdb
        show List.Pairwise (fun a b => a.user ≠ b.user) (applyUpdate p b).likes
        rw [show (applyUpdate p b).likes = p.likes from by simp [applyUpdate, hb]]
        exact hdb p (findById_mem hfb)
  · intro u b newId now hb
    intro q hq
    rcases List.mem_append.mp hq with hq' | hq'
    · exact hdb q hq'
    · have hq2 := List.mem_singleton.mp hq'
      subst hq2
      show List.Pairwise (fun a b => a.user ≠ b.user) (b.likes?.getD [])
      rw [hb]
      exact List.Pairwise.nil

theorem c7_witness :
    dbLikesNoDup (likeToggle [exPub] 1 exIntruder 5).2 :=
  (c7_like_uniqueness_preserved [exPub] (by decide)).1 1 exIntruder 5

/-! ### Pagination contract (C3) -/

theorem parseOr_pos (v : Option Nat) (d : Nat) (hd : 0 < d) :
    0 < parseOr v d := by
  rcases v with _ | n
  · exact hd
  · simp only [parseOr]
    by_cases hn : (n == 0) = true
    · rw [if_pos hn]; exact hd
    · rw [if_neg hn]
      have hne : n ≠ 0 := by simpa using hn
      omega

def exQp3 : QueryParams :=
  { page := some 3, limit := none, category := none, tags := none
    search := none, author := none, sortBy := none, status := none }

/-- C3 counterexample: with one published post, a valid request for page 3
with the default limit 10 has startIndex = (3-1)*10 = 20, total = 1 and an
empty page, and 20 + 0 ≤ 1 is false — `startIndex + returned_count ≤ total`
does not hold for every valid page/limit. -/
theorem c3_counterexample :
    parseOr exQp3.page 1 = 3 ∧ parseOr exQp3.limit 10 = 10 ∧
    (listPosts [exPub] exQp3).total = 1 ∧
    (listPosts [exPub] exQp3).count = 0 ∧
    ¬ ((3 - 1) * 10 + (listPosts [exPub] exQp3).count
        ≤ (listPosts [exPub] exQp3).total) := by decide

/-- C3 (amended): for every listing request, with page/limit the parsed
values and startIndex = (page-1)*limit: `prev` is present iff page > 1 iff
startIndex > 0, `next` is present iff startIndex + limit < total, `count` is
the length of the returned page, and `startIndex + count ≤ total` holds
whenever startIndex ≤ total (when startIndex overshoots total the page is
merely empty). -/
theorem c3_pagination_contract (db : Db) (qp : QueryParams) :
    ((listPosts db qp).hasPrev = true ↔ 1 < parseOr qp.page 1) ∧
    ((listPosts db qp).hasPrev = true ↔
      0 < (parseOr qp.page 1 - 1) * parseOr qp.limit 10) ∧
    ((listPosts db qp).hasNext = true ↔
      (parseOr qp.page 1 - 1) * parseOr qp.limit 10 + parseOr qp.limit 10
        < (listPosts db qp).total) ∧
    (listPosts db qp).count = (listPosts db qp).posts.length ∧
    ((parseOr qp.page 1 - 1) * parseOr qp.limit 10 ≤ (listPosts db qp).total →
      (parseOr qp.page 1 - 1) * parseOr qp.limit 10 + (listPosts db qp).count
        ≤ (listPosts db qp).total) := by
  have hlimit : 0 < parseOr qp.limit 10 := parseOr_pos _ _ (by omega)
  have hprev : (listPosts db qp).hasPrev =
      decide (0 < (parseOr qp.page 1 - 1) * parseOr qp.limit 10) := by
    simp [listPosts]
  have hnext : (listPosts db qp).hasNext =
      decide ((parseOr qp.page 1 - 1) * parseOr qp.limit 10
        + parseOr qp.limit 10 < (db.filter (matchesListQuery qp)).length) := by
    simp [listPosts]
  have htotal : (listPosts db qp).total =
      (db.filter (matchesListQuery qp)).length := by
    simp [listPosts]
  have hcount : (listPosts db qp).count =
      min (parseOr qp.limit 10)
        ((db.filter (matchesListQuery qp)).length
          - (parseOr qp.page 1 - 1) * parseOr qp.limit 10) := by
    simp [listPosts, sortPosts]
  refine ⟨?_, ?_, ?_, ?_, ?_⟩
  · rw [hprev, decide_eq_true_eq]
    constructor
    · intro h0
      rcases Nat.lt_or_ge 1 (parseOr qp.page 1) with h | h
      · exact h
      · exfalso
        have hz : parseOr qp.page 1 - 1 = 0 := by omega
        rw [hz, Nat.zero_mul] at h0
        exact Nat.lt_irrefl 0 h0
    · intro h1
      exact Nat.mul_pos (by omega) hlimit
  · rw [hprev, decide_eq_true_eq]
  · rw [hnext, htotal, decide_eq_true_eq]
  · simp [listPosts]
  · intro hs
    rw [htotal] at hs ⊢
    have hle : (listPosts db qp).count ≤
        (db.filter (matchesListQuery qp)).length
          - (parseOr qp.page 1 - 1) * parseOr qp.limit 10 := by
      rw [hcount]; exact Nat.min_le_right _ _
    omega

def exQp1 : QueryParams :=
  { page := none, limit := none, category := none, tags := none
    search := none, author := none, sortBy := none, status := none }

theorem c3_witness :
    (parseOr exQp1.page 1 - 1) * parseOr exQp1.limit 10
        + (listPosts [exPub] exQp1).count ≤ (listPosts [exPub] exQp1).total :=
  (c3_pagination_contract [exPub] exQp1).2.2.2.2 (by decide)

/-! ### Sort mapping and the mostLiked bug (C2) -/

def postOneLike : Post :=
  { pid := 1, title := "A", content := "x", category := "Tech", tags := []
    status := "published", author := 1
    likes := [{ user := 100, likedAt := 100 }]
    comments := [], viewCount := 0, createdAt := 0 }

def postTwoLikes : Post :=
  { pid := 2, title := "B", content := "y", category := "Tech", tags := []
    status := "published", author := 1
    likes := [{ user := 1, likedAt := 1 }, { user := 2, likedAt := 2 }]
    comments := [], viewCount := 5, createdAt := 5 }

def exQpMostLiked : QueryParams :=
  { page := none, limit := none, category := none, tags := none
    search := none, author := none, sortBy := some "mostLiked", status := none }

/-- C2 (bug at `mostLiked`): the handler maps `mostLiked` to the sort
specification `{ likes: -1 }`, i.e. a descending sort on the likes array
field itself; the store then orders documents by the maximal array element,
not by the array's length.  On a store with a two-like post and a one-like
post whose single like entry compares higher, the returned (pid, like count)
sequence is [(1, 1), (2, 2)]: the one-like post precedes the two-like post,
so the page is not ordered by like count descending.  (The other four
mappings behave as specified.) -/
theorem c2_mostLiked_not_by_like_count :
    sortSpecOf (some "mostLiked") = SortSpec.likesDesc ∧
    (listPosts [postTwoLikes, postOneLike] exQpMostLiked).posts.map
      (fun p => (p.pid, p.likes.length)) = [(1, 1), (2, 2)] := by decide

/-! ### The /my/posts variant ignores the public filters (C10) -/

theorem myPosts_posts (db : Db) (u : User) (qp : QueryParams) :
    (myPosts db u qp).posts =
      ((sortPosts SortSpec.createdAtDesc
          (db.filter (matchesMyQuery u qp))).drop
        ((parseOr qp.page 1 - 1) * parseOr qp.limit 10)).take
        (parseOr qp.limit 10) := rfl

theorem sorted_createdAtDesc (l : List Post) :
    (sortPosts SortSpec.createdAtDesc l).Pairwise
      (fun a b => b.createdAt ≤ a.createdAt) := by
  haveI htot : IsTotal Post
      (fun a b => leB SortSpec.createdAtDesc a b = true) := by
    constructor
    intro a b
    simp [leB]
    omega
  haveI htr : IsTrans Post
      (fun a b => leB SortSpec.createdAtDesc a b = true) := by
    constructor
    intro a b c hab hbc
    simp [leB] at *
    omega
  have h := List.sorted_insertionSort
    (fun a b => leB SortSpec.createdAtDesc a b = true) l
  have h2 : (sortPosts SortSpec.createdAtDesc l).Pairwise
      (fun a b => leB SortSpec.createdAtDesc a b = true) := h
  exact h2.imp (fun hab => by simpa [leB] using hab)

/-- C10: GET /my/posts never reads category, tags, search or sortBy: any two
requests agreeing on page, limit and status get identical responses; every
returned post belongs to the caller and matches the optional status filter;
and the page is always ordered by creation time descending. -/
theorem c10_my_posts_ignores_filters (db : Db) (u : User)
    (q1 q2 : QueryParams) (hp : q1.page = q2.page) (hl : q1.limit = q2.limit)
    (hs : q1.status = q2.status) :
    myPosts db u q1 = myPosts db u q2 ∧
    (∀ p ∈ (myPosts db u q1).posts,
      p.author = u.uid ∧ ∀ s, q1.status = some s → p.status = s) ∧
    (myPosts db u q1).posts.Pairwise (fun a b => b.createdAt ≤ a.createdAt) := by
  refine ⟨?_, ?_, ?_⟩
  · have hq : matchesMyQuery u q1 = matchesMyQuery u q2 := by
      funext p
      simp only [matchesMyQuery, hs]
    simp only [myPosts, hp, hl, hq]
  · intro p hp'
    rw [myPosts_posts] at hp'
    have hsorted : p ∈ sortPosts SortSpec.createdAtDesc
        (db.filter (matchesMyQuery u q1)) :=
      ((List.take_sublist _ _).trans (List.drop_sublist _ _)).subset hp'
    have hfil : p ∈ db.filter (matchesMyQuery u q1) := by
      simpa [sortPosts] using hsorted
    have hmatch := (List.mem_filter.mp hfil).2
    simp only [matchesMyQuery, Bool.and_eq_true] at hmatch
    constructor
    · simpa using hmatch.1
    · intro s hs1
      have h2 := hmatch.2
      rw [hs1] at h2
      simpa using h2
  · rw [myPosts_posts]
    exact List.Pairwise.sublist
      ((List.take_sublist _ _).trans (List.drop_sublist _ _))
      (sorted_createdAtDesc _)

def exQpNoise : QueryParams :=
  { page := none, limit := none, category := some "zzz", tags := some "a,b"
    search := some "qqq", author := some 9, sortBy := some "title"
    status := none }

theorem c10_witness :
    myPosts [exPub] exAuthorUser exQpNoise = myPosts [exPub] exAuthorUser exQp1 ∧
    (∀ p ∈ (myPosts [exPub] exAuthorUser exQpNoise).posts,
      p.author = exAuthorUser.uid ∧
        ∀ s, exQpNoise.status = some s → p.status = s) ∧
    (myPosts [exPub] exAuthorUser exQpNoise).posts.Pairwise
      (fun a b => b.createdAt ≤ a.createdAt) :=
  c10_my_posts_ignores_filters [exPub] exAuthorUser exQpNoise exQp1 rfl rfl rfl

end RestApi
